import Mathlib

/-!
Shallow embedding of the WhichGLP drug recommendation engine
(apps/backend/ml/recommender.py) and verification of its specification.

Modelling conventions:
* Python floats are modelled by exact rationals; machine rounding
  (Python round, round-half-to-even) is modelled by pythonRound.
* pandas rows become ExperienceRecord values; NaN / missing cells become
  Option values; pandas dropna becomes List.filterMap.
* Python dict insertion order (the side-effect counting dict) is modelled
  by an association list built left to right (bumpCount / buildCounts).
* sorted(..., reverse=True), list.sort(reverse=True) and DataFrame.nlargest
  (keep equal to first) are stable descending sorts: sortByKeyDesc, an
  insertion sort with relation key b LE key a.
* The cosine similarity produces irrational real numbers, so the pipeline
  (filtering, top-k selection, aggregation, scoring, ranking) is stated for
  an arbitrary similarity assignment sim : UserProfile -> ExperienceRecord -> Rat
  passed explicitly where the code calls self.calculate_similarity; every
  pipeline theorem is therefore proved for every similarity function, in
  particular for the actual cosine.  The numeric cosine computation itself
  (calculate_similarity) is modelled relationally over the reals
  (calculate_similarity_rel) since its value is a square-root quotient.
-/

namespace WhichGLP

/-- Python round(x): round half to even (banker's rounding), on exact rationals. -/
def pythonRound (q : ℚ) : ℤ :=
  if q - (Int.floor q : ℚ) < 1/2 then Int.floor q
  else if 1/2 < q - (Int.floor q : ℚ) then Int.floor q + 1
  else if Int.floor q % 2 = 0 then Int.floor q else Int.floor q + 1

/-- Python round(x, 1): round to one decimal digit. -/
def roundTo1 (q : ℚ) : ℚ := (pythonRound (q * 10) : ℚ) / 10

/-- Python truthiness of an optional number: None and 0 are falsy. -/
def qTruthy : Option ℚ → Bool
  | none => false
  | some q => decide (q ≠ 0)

/-- Python str.lower() (ASCII model). -/
def pyLower (s : String) : String := ⟨s.data.map Char.toLower⟩

/-- Python whitespace as used by str.strip(). -/
def pySpace (c : Char) : Bool :=
  c = ' ' || c = '\t' || c = '\n' || c = '\r' || c = '\x0b' || c = '\x0c'

/-- Python str.strip(): remove leading and trailing whitespace. -/
def pyStrip (s : String) : String :=
  ⟨((s.data.dropWhile pySpace).reverse.dropWhile pySpace).reverse⟩

/-- Character walk for Python str.title(): uppercase a letter that follows a
non-letter, lowercase a letter that follows a letter. -/
def pyTitleGo : Bool → List Char → List Char
  | _, [] => []
  | prevAlpha, c :: cs =>
    if c.isAlpha then
      (if prevAlpha then c.toLower else c.toUpper) :: pyTitleGo true cs
    else
      c :: pyTitleGo false cs

/-- Python str.title() (ASCII model). -/
def pyTitle (s : String) : String := ⟨pyTitleGo false s.data⟩

/-- Stable descending sort by a key, modelling Python sorted/list.sort with
reverse set and pandas nlargest with keep equal to first: an insertion sort
for the relation key b LE key a, which keeps the original order of elements
with equal keys. -/
def sortByKeyDesc {α β : Type} [LinearOrder β] (key : α → β) (l : List α) : List α :=
  @List.insertionSort α (fun a b => key b ≤ key a)
    (fun a b => inferInstanceAs (Decidable (key b ≤ key a))) l

/-- Ascending sort of rationals (pandas median sorts its values). -/
def sortAsc (l : List ℚ) : List ℚ :=
  @List.insertionSort ℚ (fun a b => a ≤ b)
    (fun a b => inferInstanceAs (Decidable (a ≤ b))) l

/-- pandas Series.min on a nonempty list, with the code's 0 fallback for empty. -/
def listMinD : List ℚ → ℚ
  | [] => 0
  | h :: t => t.foldl min h

/-- pandas Series.max on a nonempty list, with the code's 0 fallback for empty. -/
def listMaxD : List ℚ → ℚ
  | [] => 0
  | h :: t => t.foldl max h

/-- pandas Series.mean: sum divided by length (callers guard emptiness). -/
def listMean (l : List ℚ) : ℚ := l.sum / (l.length : ℚ)

/-- pandas Series.median: interpolated median of the ascending-sorted values. -/
def listMedian (l : List ℚ) : ℚ :=
  let s := sortAsc l
  let n := l.length
  if n % 2 = 1 then s.getD (n / 2) 0
  else (s.getD (n / 2 - 1) 0 + s.getD (n / 2) 0) / 2

/-- Conversion factor used by the code for kg to lbs. -/
def lbsPerKg : ℚ := 2.20462

/-- UserProfile dataclass (post __post_init__: the two None list defaults
are already replaced by empty lists). -/
structure UserProfile where
  current_weight : ℚ
  weight_unit : String
  goal_weight : ℚ
  age : ℤ
  sex : String
  state : Option String := none
  country : String := "USA"
  comorbidities : List String := []
  has_insurance : Bool := false
  insurance_provider : Option String := none
  max_budget : Option ℚ := none
  side_effect_concerns : List String := []
deriving DecidableEq, Repr

/-- One side-effect dict of an experience row: name may be missing or null
(the code skips entries without a usable name), severity defaults to
moderate when absent. -/
structure SideEffectEntry where
  name : Option String
  severity : Option String := none
deriving DecidableEq, Repr

/-- One row of the experience corpus; missing / NaN cells are none. -/
structure ExperienceRecord where
  primary_drug : Option String
  beginning_weight_lbs : Option ℚ := none
  weight_loss_lbs : Option ℚ := none
  weight_loss_percentage : Option ℚ := none
  age : Option ℚ := none
  sex : Option String := none
  has_insurance : Option Bool := none
  comorbidities : List String := []
  side_effects : Option (List SideEffectEntry) := none
  cost_per_month : Option ℚ := none
deriving DecidableEq, Repr

/-- One aggregated side-effect entry of the outcome summary. -/
structure SideEffectOut where
  effect : String
  probability : ℤ
  severity : String
deriving DecidableEq, Repr

/-- The outcome dict returned by aggregate_outcomes. -/
structure OutcomeSummary where
  weight_loss_min : ℚ
  weight_loss_max : ℚ
  weight_loss_avg : ℚ
  success_rate : ℤ
  estimated_cost : Option ℚ
  side_effects : List SideEffectOut
  similar_user_count : ℕ
  avg_similarity : ℚ
deriving DecidableEq, Repr

/-- The expected_weight_loss dict of a recommendation. -/
structure ExpectedWeightLoss where
  min : ℚ
  max : ℚ
  avg : ℚ
  unit : String
deriving DecidableEq, Repr

/-- DrugRecommendation dataclass. -/
structure DrugRecommendation where
  drug : String
  match_score : ℤ
  expected_weight_loss : ExpectedWeightLoss
  success_rate : ℤ
  estimated_cost : Option ℤ
  side_effect_probability : List SideEffectOut
  similar_user_count : ℕ
  pros : List String
  cons : List String
deriving DecidableEq, Repr

/-- Default feature weights from the constructor. -/
def defaultFeatureWeights : List (String × ℚ) :=
  [("age", 0.15), ("sex", 0.10), ("weight", 0.30), ("bmi_similarity", 0.20),
   ("comorbidities", 0.15), ("insurance", 0.10)]

/-- The state stored by DrugRecommender.__init__. -/
structure DrugRecommender where
  k : ℕ
  min_similar_users : ℕ
  weights : List (String × ℚ)
deriving DecidableEq, Repr

/-- DrugRecommender.__init__: feature_weights or default (an absent or empty
dict is falsy in Python and falls back to the default weights). -/
def mkRecommender (k_neighbors : ℕ := 15) (min_similar_users : ℕ := 5)
    (feature_weights : Option (List (String × ℚ)) := none) : DrugRecommender :=
  { k := k_neighbors
    min_similar_users := min_similar_users
    weights :=
      match feature_weights with
      | none => defaultFeatureWeights
      | some w => if w = [] then defaultFeatureWeights else w }

/-- convert_weight_to_lbs. -/
def convert_weight_to_lbs (weight : ℚ) (unit : String) : ℚ :=
  if pyLower unit = "kg" then weight * lbsPerKg else weight

/-- calculate_bmi: fixed assumed height of 67 inches. -/
def calculate_bmi (weight_lbs : ℚ) : ℚ := weight_lbs / (67 * 67) * 703

/-- extract_user_features: the 12-dimensional user feature vector, in the
fixed dict order of the source. -/
def extract_user_features (u : UserProfile) : List ℚ :=
  let weight_lbs := convert_weight_to_lbs u.current_weight u.weight_unit
  let goal_lbs := convert_weight_to_lbs u.goal_weight u.weight_unit
  let weight_loss_goal_pct := ((weight_lbs - goal_lbs) / weight_lbs) * 100
  let bmi := calculate_bmi weight_lbs
  [ (u.age : ℚ),
    if u.sex = "male" then 1 else 0,
    if u.sex = "female" then 1 else 0,
    weight_lbs,
    bmi,
    weight_loss_goal_pct,
    if u.has_insurance then 1 else 0,
    if "diabetes" ∈ u.comorbidities then 1 else 0,
    if "pcos" ∈ u.comorbidities then 1 else 0,
    if "hypertension" ∈ u.comorbidities then 1 else 0,
    if "sleep apnea" ∈ u.comorbidities then 1 else 0,
    if "hypothyroidism" ∈ u.comorbidities then 1 else 0 ]

/-- safe_float: replace a missing value by a default. -/
def safe_float (v : Option ℚ) (default : ℚ := 0) : ℚ := v.getD default

/-- extract_experience_features: the matching 12-dimensional row vector. -/
def extract_experience_features (e : ExperienceRecord) : List ℚ :=
  let beginning_weight_lbs := safe_float e.beginning_weight_lbs 0
  let weight_loss_pct := safe_float e.weight_loss_percentage 0
  let bmi := if 0 < beginning_weight_lbs then calculate_bmi beginning_weight_lbs else 0
  [ safe_float e.age 30,
    if e.sex = some "male" then 1 else 0,
    if e.sex = some "female" then 1 else 0,
    beginning_weight_lbs,
    bmi,
    weight_loss_pct,
    if e.has_insurance = some true then 1 else 0,
    if "diabetes" ∈ e.comorbidities then 1 else 0,
    if "pcos" ∈ e.comorbidities then 1 else 0,
    if "hypertension" ∈ e.comorbidities then 1 else 0,
    if "sleep apnea" ∈ e.comorbidities then 1 else 0,
    if "hypothyroidism" ∈ e.comorbidities then 1 else 0 ]

/-- Dot product of two feature vectors (numpy dot of equal-length vectors). -/
def dotList (u v : List ℚ) : ℚ := (List.zipWith (fun a b => a * b) u v).sum

/-- Squared Euclidean norm of a feature vector. -/
def normSq (u : List ℚ) : ℚ := dotList u u

/-- calculate_similarity, relationally: s is the value returned for the two
feature vectors.  sklearn cosine_similarity treats a zero-norm vector as
yielding similarity 0, and the code clamps the result below by 0.
The value lives in the reals because of the square roots. -/
def calculate_similarity_rel (uf ef : List ℚ) (s : ℝ) : Prop :=
  s = max 0
    (if normSq uf = 0 ∨ normSq ef = 0 then (0 : ℝ)
     else ((dotList uf ef : ℚ) : ℝ) /
       (Real.sqrt ((normSq uf : ℚ) : ℝ) * Real.sqrt ((normSq ef : ℚ) : ℝ)))

/-- find_similar_experiences: filter the corpus to the drug, attach a
similarity to every row, and take the k rows of highest similarity
(nlargest, keep equal to first: stable descending sort then take k).
The similarity assignment sim stands for calculate_similarity applied to
the extracted feature vectors. -/
def find_similar_experiences (cfg : DrugRecommender)
    (sim : UserProfile → ExperienceRecord → ℚ) (u : UserProfile)
    (df : List ExperienceRecord) (drug : String) : List (ExperienceRecord × ℚ) :=
  let drug_experiences := df.filter (fun e => decide (e.primary_drug = some drug))
  if drug_experiences.isEmpty then []
  else
    let withSims := drug_experiences.map (fun e => (e, sim u e))
    (sortByKeyDesc (fun p => p.2) withSims).take cfg.k

/-- Normalization of one side-effect name: Python
se name strip().title() when the name is truthy, else the empty string. -/
def normalizeEffectName : Option String → String
  | none => ""
  | some s => if s = "" then "" else pyTitle (pyStrip s)

/-- The (normalized name, severity) occurrences contributed by one neighbor
row, in list order; entries with an empty normalized name are skipped and a
missing severity defaults to moderate. -/
def recordEffects (p : ExperienceRecord × ℚ) : List (String × String) :=
  match p.1.side_effects with
  | none => []
  | some ses => ses.filterMap (fun se =>
      let n := normalizeEffectName se.name
      if n = "" then none else some (n, se.severity.getD "moderate"))

/-- All occurrences across the neighbor set, in iteration order. -/
def collectEffects (similar : List (ExperienceRecord × ℚ)) : List (String × String) :=
  (similar.map recordEffects).flatten

/-- One step of the counting dict: increment the entry of this name, or
append a fresh entry (count 1, severity of this first occurrence). -/
def bumpCount : List (String × ℕ × String) → String × String → List (String × ℕ × String)
  | [], e => [(e.1, 1, e.2)]
  | (n, c, sv) :: rest, e =>
    if n = e.1 then (n, c + 1, sv) :: rest
    else (n, c, sv) :: bumpCount rest e

/-- The side_effects_counts dict as an insertion-ordered association list. -/
def buildCounts (occ : List (String × String)) : List (String × ℕ × String) :=
  occ.foldl bumpCount []

/-- Association-list lookup used to reason about the counting dict. -/
def lookupC : List (String × ℕ × String) → String → Option (ℕ × String)
  | [], _ => none
  | (n, c, sv) :: rest, m => if n = m then some (c, sv) else lookupC rest m

/-- sorted(side_effects_counts.items(), key count, reverse): stable
descending sort of the count entries. -/
def rankedCounts (similar : List (ExperienceRecord × ℚ)) : List (String × ℕ × String) :=
  sortByKeyDesc (fun t => t.2.1) (buildCounts (collectEffects similar))

/-- The top (at most 5) side effects with integer percentage probability. -/
def topSideEffects (similar : List (ExperienceRecord × ℚ)) : List SideEffectOut :=
  ((rankedCounts similar).take 5).map (fun t =>
    { effect := t.1
      probability := pythonRound ((t.2.1 : ℚ) / (similar.length : ℚ) * 100)
      severity := t.2.2 })

/-- aggregate_outcomes: None for an empty neighbor set, else the summary. -/
def aggregate_outcomes (similar : List (ExperienceRecord × ℚ)) (u : UserProfile) :
    Option OutcomeSummary :=
  if similar.isEmpty then none
  else
    let weight_losses0 := similar.filterMap (fun p => p.1.weight_loss_lbs)
    let weight_losses :=
      if pyLower u.weight_unit = "kg" then weight_losses0.map (fun w => w / lbsPerKg)
      else weight_losses0
    let total_users := similar.length
    let costs := similar.filterMap (fun p => p.1.cost_per_month)
    let weight_loss_pcts := similar.filterMap (fun p => p.1.weight_loss_percentage)
    let success_count := weight_loss_pcts.countP (fun x => decide (10 ≤ x))
    some
      { weight_loss_min := if 0 < weight_losses.length then listMinD weight_losses else 0
        weight_loss_max := if 0 < weight_losses.length then listMaxD weight_losses else 0
        weight_loss_avg := if 0 < weight_losses.length then listMean weight_losses else 0
        success_rate :=
          if 0 < weight_loss_pcts.length then
            pythonRound ((success_count : ℚ) / (weight_loss_pcts.length : ℚ) * 100)
          else 0
        estimated_cost := if 0 < costs.length then some (listMedian costs) else none
        side_effects := topSideEffects similar
        similar_user_count := total_users
        avg_similarity := listMean (similar.map (fun p => p.2)) }

/-- The budget component of the match score (weight 0.20). -/
def budgetScore (o : OutcomeSummary) (u : UserProfile) : ℚ :=
  if qTruthy u.max_budget && qTruthy o.estimated_cost then
    if o.estimated_cost.getD 0 ≤ u.max_budget.getD 0 then 100
    else if o.estimated_cost.getD 0 ≤ u.max_budget.getD 0 * 1.5 then 70
    else 40
  else 100

/-- The number of aggregated side effects whose name is (case-sensitively)
in the user's concern list. -/
def matchedConcernCount (o : OutcomeSummary) (u : UserProfile) : ℕ :=
  o.side_effects.countP (fun se => decide (se.effect ∈ u.side_effect_concerns))

/-- The side-effect component of the match score (weight 0.10). -/
def sideEffectScore (o : OutcomeSummary) (u : UserProfile) : ℚ :=
  if !u.side_effect_concerns.isEmpty && !o.side_effects.isEmpty then
    max 0 (100 - (matchedConcernCount o u : ℚ) * 20)
  else 100

/-- calculate_match_score: the weighted sum of the four components, clamped
to the interval from 0 to 100. -/
def calculate_match_score (o : OutcomeSummary) (u : UserProfile) : ℚ :=
  let similarity_score := o.avg_similarity * 100
  let success_score : ℚ := (o.success_rate : ℚ)
  let budget_score := budgetScore o u
  let side_effect_score := sideEffectScore o u
  min 100 (max 0
    (similarity_score * 0.40 + success_score * 0.30 +
     budget_score * 0.20 + side_effect_score * 0.10))

/-- Python float formatting with one decimal digit, on the rational model. -/
def fmt1 (q : ℚ) : String :=
  let n := pythonRound (q * 10)
  let m := n.natAbs
  let core := toString (m / 10) ++ "." ++ toString (m % 10)
  if n < 0 then "-" ++ core else core

/-- generate_pros_cons: the deterministic rule table, preserving the
if/elif structure and the append order of the source. -/
def generate_pros_cons (o : OutcomeSummary) (u : UserProfile) :
    List String × List String :=
  let wlPros :=
    if 30 < o.weight_loss_avg then
      ["High average weight loss (" ++ fmt1 o.weight_loss_avg ++ " " ++ u.weight_unit ++ ")"]
    else []
  let wlCons :=
    if ¬ 30 < o.weight_loss_avg ∧ o.weight_loss_avg < 20 then
      ["Moderate average weight loss (" ++ fmt1 o.weight_loss_avg ++ " " ++ u.weight_unit ++ ")"]
    else []
  let srPros :=
    if 80 ≤ o.success_rate then ["High success rate (" ++ toString o.success_rate ++ "%)"]
    else []
  let srCons :=
    if ¬ 80 ≤ o.success_rate ∧ o.success_rate < 70 then
      ["Moderate success rate (" ++ toString o.success_rate ++ "%)"]
    else []
  let costPC : List String × List String :=
    if qTruthy o.estimated_cost then
      let ec := o.estimated_cost.getD 0
      if u.has_insurance && decide (ec < 50) then (["Good insurance coverage"], [])
      else if !u.has_insurance && decide (ec < 500) then
        (["Relatively affordable without insurance"], [])
      else if 1000 < ec then ([], ["High out-of-pocket cost"])
      else ([], [])
    else ([], [])
  let sePros := if o.side_effects.length ≤ 2 then ["Fewer reported side effects"] else []
  let seCons :=
    if ¬ o.side_effects.length ≤ 2 ∧ 4 ≤ o.side_effects.length then
      ["Multiple common side effects reported"]
    else []
  let cntPros :=
    if 30 ≤ o.similar_user_count then
      ["Strong data from " ++ toString o.similar_user_count ++ " similar users"]
    else []
  let cntCons :=
    if ¬ 30 ≤ o.similar_user_count ∧ o.similar_user_count < 10 then
      ["Limited data (only " ++ toString o.similar_user_count ++ " similar users)"]
    else []
  (wlPros ++ srPros ++ costPC.1 ++ sePros ++ cntPros,
   wlCons ++ srCons ++ costPC.2 ++ seCons ++ cntCons)

/-- The DrugRecommendation value built for a drug from its outcome summary. -/
def buildRec (drug : String) (o : OutcomeSummary) (u : UserProfile) : DrugRecommendation :=
  let pc := generate_pros_cons o u
  { drug := drug
    match_score := pythonRound (calculate_match_score o u)
    expected_weight_loss :=
      { min := roundTo1 o.weight_loss_min
        max := roundTo1 o.weight_loss_max
        avg := roundTo1 o.weight_loss_avg
        unit := u.weight_unit }
    success_rate := o.success_rate
    estimated_cost :=
      if qTruthy o.estimated_cost then some (pythonRound (o.estimated_cost.getD 0))
      else none
    side_effect_probability := o.side_effects
    similar_user_count := o.similar_user_count
    pros := pc.1
    cons := pc.2 }

/-- The body of the per-drug loop of recommend: skip the drug when fewer
than min_similar_users neighbors were selected or when aggregation returns
None, else produce its recommendation. -/
def perDrug (cfg : DrugRecommender) (sim : UserProfile → ExperienceRecord → ℚ)
    (u : UserProfile) (df : List ExperienceRecord) (drug : String) :
    Option DrugRecommendation :=
  let similar := find_similar_experiences cfg sim u df drug
  if similar.length < cfg.min_similar_users then none
  else
    match aggregate_outcomes similar u with
    | none => none
    | some o => some (buildRec drug o u)

/-- The non-NaN primary_drug values of the corpus, in corpus order. -/
def drugNames (df : List ExperienceRecord) : List String :=
  df.filterMap (fun e => e.primary_drug)

/-- The raw number of corpus records for a drug. -/
def countDrug (df : List ExperienceRecord) (d : String) : ℕ :=
  (drugNames df).countP (fun n => decide (n = d))

/-- First-appearance deduplication (the distinct values of value_counts). -/
def firstDedup (l : List String) : List String :=
  l.foldl (fun ks n => if n ∈ ks then ks else ks ++ [n]) []

/-- value_counts followed by the eligibility filter: the distinct drugs
in descending raw-count order, keeping those with at least
min_similar_users records. -/
def eligibleDrugs (cfg : DrugRecommender) (df : List ExperienceRecord) : List String :=
  (sortByKeyDesc (fun d => countDrug df d) (firstDedup (drugNames df))).filter
    (fun d => decide (cfg.min_similar_users ≤ countDrug df d))

/-- The recommendations in drug-processing (encounter) order, before the
final sort. -/
def recommendationsList (cfg : DrugRecommender)
    (sim : UserProfile → ExperienceRecord → ℚ) (u : UserProfile)
    (df : List ExperienceRecord) : List DrugRecommendation :=
  (eligibleDrugs cfg df).filterMap (perDrug cfg sim u df)

/-- recommend: build the per-drug recommendations and stably sort them by
descending match score. -/
def recommend (cfg : DrugRecommender) (sim : UserProfile → ExperienceRecord → ℚ)
    (u : UserProfile) (df : List ExperienceRecord) : List DrugRecommendation :=
  sortByKeyDesc (fun r => r.match_score) (recommendationsList cfg sim u df)

/-! ## Concrete instances used by witnesses and counterexamples -/

def wUser : UserProfile :=
  { current_weight := 200, weight_unit := "lbs", goal_weight := 180, age := 30, sex := "male" }

def wUserBudget : UserProfile := { wUser with max_budget := some 100 }

def wUserConcern : UserProfile := { wUser with side_effect_concerns := ["Nausea"] }

def wSimZero : UserProfile → ExperienceRecord → ℚ := fun _ _ => 0

def wSimAge : UserProfile → ExperienceRecord → ℚ := fun _ e => e.age.getD 0

def wCfg : DrugRecommender := mkRecommender 1 1 none

def wCfgK2 : DrugRecommender := mkRecommender 2 1 none

def wDrugA : ExperienceRecord := { primary_drug := some "a" }

def wCostZero : ExperienceRecord := { primary_drug := some "a", cost_per_month := some 0 }

def wAge1 : ExperienceRecord := { primary_drug := some "a", age := some 1 }

def wAge3 : ExperienceRecord := { primary_drug := some "a", age := some 3 }

def wAge2 : ExperienceRecord := { primary_drug := some "a", age := some 2 }

def wNauseaA : ExperienceRecord :=
  { primary_drug := some "a", side_effects := some [⟨some "Nausea", none⟩] }

def wNauseaB : ExperienceRecord :=
  { primary_drug := some "a", side_effects := some [⟨some "  nausea ", some "mild"⟩] }

def cexDupNausea : ExperienceRecord :=
  { primary_drug := some "a",
    side_effects := some [⟨some "Nausea", none⟩, ⟨some "  nausea ", none⟩] }

def wRec : DrugRecommendation :=
  { drug := "a"
    match_score := 30
    expected_weight_loss := { min := 0, max := 0, avg := 0, unit := "lbs" }
    success_rate := 0
    estimated_cost := none
    side_effect_probability := []
    similar_user_count := 1
    pros := ["Fewer reported side effects"]
    cons := ["Moderate average weight loss (0.0 lbs)", "Moderate success rate (0%)",
             "Limited data (only 1 similar users)"] }

def wOutcomeCost : OutcomeSummary :=
  { weight_loss_min := 0, weight_loss_max := 0, weight_loss_avg := 0, success_rate := 0,
    estimated_cost := some 0, side_effects := [], similar_user_count := 1,
    avg_similarity := 0 }

def wOutcomeNausea : OutcomeSummary :=
  { weight_loss_min := 0, weight_loss_max := 0, weight_loss_avg := 0, success_rate := 0,
    estimated_cost := none, side_effects := [⟨"Nausea", 60, "moderate"⟩],
    similar_user_count := 1, avg_similarity := 0 }

/-! ## Helper lemmas about the stable descending sort -/

theorem sortByKeyDesc_perm {α β : Type} [LinearOrder β] (key : α → β) (l : List α) :
    (sortByKeyDesc key l).Perm l :=
  List.perm_insertionSort _ l

theorem sortByKeyDesc_pairwise {α β : Type} [LinearOrder β] (key : α → β) (l : List α) :
    List.Pairwise (fun a b => key b ≤ key a) (sortByKeyDesc key l) := by
  haveI : IsTotal α (fun a b => key b ≤ key a) := ⟨fun a b => le_total (key b) (key a)⟩
  haveI : IsTrans α (fun a b => key b ≤ key a) :=
    ⟨fun a b c hab hbc => le_trans hbc hab⟩
  exact List.sorted_insertionSort _ l

theorem orderedInsert_filter_key {α β : Type} [LinearOrder β] (key : α → β) (s : β)
    (a : α) (l : List α) :
    (@List.orderedInsert α (fun x y => key y ≤ key x)
        (fun x y => inferInstanceAs (Decidable (key y ≤ key x))) a l).filter
        (fun x => decide (key x = s)) =
      if key a = s then a :: l.filter (fun x => decide (key x = s))
      else l.filter (fun x => decide (key x = s)) := by
  induction l with
  | nil =>
    by_cases has : key a = s <;> simp [List.orderedInsert, has]
  | cons b t ih =>
    by_cases hba : key b ≤ key a
    · have step : (@List.orderedInsert α (fun x y => key y ≤ key x)
          (fun x y => inferInstanceAs (Decidable (key y ≤ key x))) a (b :: t)) =
          a :: b :: t := by
        simp [List.orderedInsert, if_pos hba]
      rw [step]
      by_cases has : key a = s <;> simp [List.filter_cons, has]
    · have step : (@List.orderedInsert α (fun x y => key y ≤ key x)
          (fun x y => inferInstanceAs (Decidable (key y ≤ key x))) a (b :: t)) =
          b :: (@List.orderedInsert α (fun x y => key y ≤ key x)
            (fun x y => inferInstanceAs (Decidable (key y ≤ key x))) a t) := by
        simp [List.orderedInsert, if_neg hba]
      rw [step]
      by_cases has : key a = s
      · have hbs : ¬ key b = s := fun h => hba (le_of_eq (h.trans has.symm))
        simp [List.filter_cons, hbs, ih, has]
      · by_cases hbs : key b = s <;> simp [List.filter_cons, hbs, ih, has]

theorem sortByKeyDesc_filter_key {α β : Type} [LinearOrder β] (key : α → β) (s : β)
    (l : List α) :
    (sortByKeyDesc key l).filter (fun x => decide (key x = s)) =
      l.filter (fun x => decide (key x = s)) := by
  induction l with
  | nil => rfl
  | cons a t ih =>
    show ((@List.orderedInsert α (fun x y => key y ≤ key x)
        (fun x y => inferInstanceAs (Decidable (key y ≤ key x))) a
        (sortByKeyDesc key t)).filter (fun x => decide (key x = s))) = _
    rw [orderedInsert_filter_key key s a]
    by_cases has : key a = s <;> simp [List.filter_cons, has, ih]

/-! ## Helper lemmas about eligibility, the per-drug loop and membership -/

theorem countDrug_eq_filter_length (df : List ExperienceRecord) (d : String) :
    countDrug df d = (df.filter (fun e => decide (e.primary_drug = some d))).length := by
  induction df with
  | nil => rfl
  | cons e t ih =>
    cases he : e.primary_drug with
    | none =>
      simp only [countDrug, drugNames, List.filterMap_cons, he, List.filter_cons] at *
      simp [he, ih]
    | some x =>
      simp only [countDrug, drugNames, List.filterMap_cons, he, List.filter_cons,
        List.countP_cons] at *
      by_cases hx : x = d <;> simp [he, hx, ih]

theorem mem_foldl_dedup (l : List String) (ks : List String) (d : String) :
    d ∈ l.foldl (fun ks n => if n ∈ ks then ks else ks ++ [n]) ks ↔ d ∈ ks ∨ d ∈ l := by
  induction l generalizing ks with
  | nil => simp
  | cons n t ih =>
    show d ∈ t.foldl _ (if n ∈ ks then ks else ks ++ [n]) ↔ _
    rw [ih]
    by_cases hn : n ∈ ks
    · simp only [if_pos hn, List.mem_cons]
      constructor
      · rintro (h | h)
        · exact Or.inl h
        · exact Or.inr (Or.inr h)
      · rintro (h | h | h)
        · exact Or.inl h
        · exact Or.inl (h ▸ hn)
        · exact Or.inr h
    · simp only [if_neg hn, List.mem_append, List.mem_singleton, List.mem_cons]
      tauto

theorem mem_firstDedup (l : List String) (d : String) :
    d ∈ firstDedup l ↔ d ∈ l := by
  unfold firstDedup
  rw [mem_foldl_dedup]
  simp

theorem mem_eligibleDrugs (cfg : DrugRecommender) (df : List ExperienceRecord)
    (d : String) :
    d ∈ eligibleDrugs cfg df ↔
      d ∈ drugNames df ∧ cfg.min_similar_users ≤ countDrug df d := by
  unfold eligibleDrugs
  rw [List.mem_filter, (sortByKeyDesc_perm _ _).mem_iff, mem_firstDedup]
  simp

theorem perDrug_eq_some_iff (cfg : DrugRecommender)
    (sim : UserProfile → ExperienceRecord → ℚ) (u : UserProfile)
    (df : List ExperienceRecord) (drug : String) (r : DrugRecommendation) :
    perDrug cfg sim u df drug = some r ↔
      cfg.min_similar_users ≤ (find_similar_experiences cfg sim u df drug).length ∧
      ∃ o, aggregate_outcomes (find_similar_experiences cfg sim u df drug) u = some o ∧
        r = buildRec drug o u := by
  by_cases h : (find_similar_experiences cfg sim u df drug).length < cfg.min_similar_users
  · simp [perDrug, h, not_le.mpr h]
  · cases ho : aggregate_outcomes (find_similar_experiences cfg sim u df drug) u with
    | none => simp [perDrug, h, ho]
    | some o => simp [perDrug, h, ho, not_lt.mp h, eq_comm]

theorem mem_recommend_iff (cfg : DrugRecommender)
    (sim : UserProfile → ExperienceRecord → ℚ) (u : UserProfile)
    (df : List ExperienceRecord) (r : DrugRecommendation) :
    r ∈ recommend cfg sim u df ↔
      ∃ drug ∈ eligibleDrugs cfg df, perDrug cfg sim u df drug = some r := by
  unfold recommend recommendationsList
  rw [(sortByKeyDesc_perm _ _).mem_iff]
  exact List.mem_filterMap

theorem aggregate_outcomes_ne_nil {S : List (ExperienceRecord × ℚ)} {u : UserProfile}
    {o : OutcomeSummary} (h : aggregate_outcomes S u = some o) : S ≠ [] := by
  intro hS
  subst hS
  simp [aggregate_outcomes] at h

theorem aggregate_outcomes_of_ne_nil (S : List (ExperienceRecord × ℚ)) (u : UserProfile)
    (h : S ≠ []) : ∃ o, aggregate_outcomes S u = some o := by
  unfold aggregate_outcomes
  rw [if_neg (by simpa [List.isEmpty_iff] using h)]
  exact ⟨_, rfl⟩

/-! ## Claim theorems -/

/-- C9: the feature_weights map passed to the constructor is stored but
never applied: two recommenders differing only in feature_weights produce
identical recommend output for every similarity assignment, user profile
and corpus. -/
theorem C9_feature_weights_unused (k m : ℕ) (fw1 fw2 : Option (List (String × ℚ)))
    (sim : UserProfile → ExperienceRecord → ℚ) (u : UserProfile)
    (df : List ExperienceRecord) :
    recommend (mkRecommender k m fw1) sim u df =
      recommend (mkRecommender k m fw2) sim u df := rfl

/-- C2: recommend returns the per-drug recommendations sorted by
non-increasing match_score, and the sort is stable: for every score value,
the recommendations carrying it appear in exactly the drug-encounter order
of the unsorted per-drug list. -/
theorem C2_sorted_descending_stable (cfg : DrugRecommender)
    (sim : UserProfile → ExperienceRecord → ℚ) (u : UserProfile)
    (df : List ExperienceRecord) :
    List.Pairwise (fun a b => b.match_score ≤ a.match_score) (recommend cfg sim u df) ∧
    ∀ s : ℤ, (recommend cfg sim u df).filter (fun r => decide (r.match_score = s)) =
      (recommendationsList cfg sim u df).filter (fun r => decide (r.match_score = s)) :=
  ⟨sortByKeyDesc_pairwise _ _, fun s => sortByKeyDesc_filter_key _ s _⟩

/-- C1: a drug appears in the recommend output only if both the raw count of
corpus records with that primary_drug is at least min_similar_users and the
number of neighbors selected for it by the similarity engine is at least
min_similar_users. -/
theorem C1_min_similar_users_invariant (cfg : DrugRecommender)
    (sim : UserProfile → ExperienceRecord → ℚ) (u : UserProfile)
    (df : List ExperienceRecord) (r : DrugRecommendation)
    (hr : r ∈ recommend cfg sim u df) :
    cfg.min_similar_users ≤
      (df.filter (fun e => decide (e.primary_drug = some r.drug))).length ∧
    cfg.min_similar_users ≤ (find_similar_experiences cfg sim u df r.drug).length := by
  rcases (mem_recommend_iff cfg sim u df r).mp hr with ⟨d, hd, hpd⟩
  rcases (perDrug_eq_some_iff cfg sim u df d r).mp hpd with ⟨hlen, o, ho, hre⟩
  have hdr : r.drug = d := by rw [hre]; rfl
  rw [hdr, ← countDrug_eq_filter_length]
  exact ⟨((mem_eligibleDrugs cfg df d).mp hd).2, hlen⟩

attribute [local semireducible] Rat.add Rat.mul Rat.sub Rat.inv Rat.ofScientific in
/-- Witness for C1 at a concrete corpus of one record. -/
theorem C1_witness :
    wRec ∈ recommend wCfg wSimZero wUser [wDrugA] ∧
    wCfg.min_similar_users ≤
      ([wDrugA].filter (fun e => decide (e.primary_drug = some wRec.drug))).length ∧
    wCfg.min_similar_users ≤
      (find_similar_experiences wCfg wSimZero wUser [wDrugA] wRec.drug).length := by
  have hm : wRec ∈ recommend wCfg wSimZero wUser [wDrugA] := by decide
  exact ⟨hm, (C1_min_similar_users_invariant wCfg wSimZero wUser [wDrugA] wRec hm).1,
    (C1_min_similar_users_invariant wCfg wSimZero wUser [wDrugA] wRec hm).2⟩

/-- C8: for an empty corpus recommend returns the empty list without
failing, and for every corpus a drug contributes a recommendation exactly
when it passes the eligibility bar and the neighbor checks; every
insufficient drug is silently omitted and never blocks the others (the
pipeline is a total function). -/
theorem C8_empty_corpus_and_silent_omission :
    (∀ (cfg : DrugRecommender) (sim : UserProfile → ExperienceRecord → ℚ)
      (u : UserProfile), recommend cfg sim u [] = []) ∧
    (∀ (cfg : DrugRecommender) (sim : UserProfile → ExperienceRecord → ℚ)
      (u : UserProfile) (df : List ExperienceRecord) (drug : String),
      (∃ r ∈ recommend cfg sim u df, r.drug = drug) ↔
        (drug ∈ eligibleDrugs cfg df ∧
         cfg.min_similar_users ≤ (find_similar_experiences cfg sim u df drug).length ∧
         find_similar_experiences cfg sim u df drug ≠ [])) := by
  constructor
  · intro cfg sim u; rfl
  · intro cfg sim u df drug
    constructor
    · rintro ⟨r, hr, hdrug⟩
      rcases (mem_recommend_iff cfg sim u df r).mp hr with ⟨d, hd, hpd⟩
      rcases (perDrug_eq_some_iff cfg sim u df d r).mp hpd with ⟨hlen, o, ho, hre⟩
      have hdr : r.drug = d := by rw [hre]; rfl
      have hdd : d = drug := by rw [← hdr, hdrug]
      subst hdd
      exact ⟨hd, hlen, aggregate_outcomes_ne_nil ho⟩
    · rintro ⟨hd, hlen, hne⟩
      rcases aggregate_outcomes_of_ne_nil _ u hne with ⟨o, ho⟩
      refine ⟨buildRec drug o u, ?_, rfl⟩
      exact (mem_recommend_iff cfg sim u df _).mpr ⟨drug, hd,
        (perDrug_eq_some_iff cfg sim u df drug _).mpr ⟨hlen, o, ho, rfl⟩⟩

attribute [local semireducible] Rat.add Rat.mul Rat.sub Rat.inv Rat.ofScientific in
/-- Witness for C8: the empty corpus gives the empty output, and the iff
produces a recommendation for the concrete one-record corpus. -/
theorem C8_witness :
    recommend wCfg wSimZero wUser [] = [] ∧
    (∃ r ∈ recommend wCfg wSimZero wUser [wDrugA], r.drug = "a") :=
  ⟨C8_empty_corpus_and_silent_omission.1 wCfg wSimZero wUser,
    (C8_empty_corpus_and_silent_omission.2 wCfg wSimZero wUser [wDrugA] "a").mpr
      ⟨by decide, by decide, by decide⟩⟩

/-! ## Helper lemmas: rounding bounds, median, aggregate projections -/

theorem le_pythonRound {n : ℤ} {q : ℚ} (h : (n : ℚ) ≤ q) : n ≤ pythonRound q := by
  unfold pythonRound
  have hf : n ≤ Int.floor q := Int.le_floor.mpr h
  split_ifs <;> omega

theorem pythonRound_le {n : ℤ} {q : ℚ} (h : q ≤ (n : ℚ)) : pythonRound q ≤ n := by
  unfold pythonRound
  have hf : Int.floor q ≤ n := by
    have := Int.floor_le_floor h
    rwa [Int.floor_intCast] at this
  split_ifs with h1 h2 h3
  · exact hf
  · have hh : (Int.floor q : ℚ) + 1/2 ≤ q := by linarith
    have : (Int.floor q : ℚ) < (n : ℚ) := by linarith
    have : Int.floor q < n := by exact_mod_cast this
    omega
  · exact hf
  · have hh : (Int.floor q : ℚ) + 1/2 ≤ q := by linarith [not_lt.mp h1]
    have : (Int.floor q : ℚ) < (n : ℚ) := by linarith
    have : Int.floor q < n := by exact_mod_cast this
    omega

theorem calculate_match_score_bounds (o : OutcomeSummary) (u : UserProfile) :
    0 ≤ calculate_match_score o u ∧ calculate_match_score o u ≤ 100 := by
  unfold calculate_match_score
  exact ⟨le_min (by norm_num) (le_max_left 0 _), min_le_left _ _⟩

theorem listMedian_all_zero {l : List ℚ} (hne : l ≠ []) (h : ∀ x ∈ l, x = 0) :
    listMedian l = 0 := by
  have hperm : (sortAsc l).Perm l := List.perm_insertionSort _ l
  have hz : ∀ x ∈ sortAsc l, x = 0 := fun x hx => h x (hperm.mem_iff.mp hx)
  have hlen : (sortAsc l).length = l.length := hperm.length_eq
  have hpos : 0 < l.length := List.length_pos.mpr hne
  unfold listMedian
  by_cases hodd : l.length % 2 = 1
  · rw [if_pos hodd]
    have hlt : l.length / 2 < (sortAsc l).length := by rw [hlen]; omega
    rw [List.getD_eq_getElem _ _ hlt]
    exact hz _ (List.getElem_mem hlt)
  · rw [if_neg hodd]
    have hlt1 : l.length / 2 - 1 < (sortAsc l).length := by rw [hlen]; omega
    have hlt2 : l.length / 2 < (sortAsc l).length := by rw [hlen]; omega
    rw [List.getD_eq_getElem _ _ hlt1, List.getD_eq_getElem _ _ hlt2,
      hz _ (List.getElem_mem hlt1), hz _ (List.getElem_mem hlt2)]
    norm_num

theorem aggregate_outcomes_estimated_cost {S : List (ExperienceRecord × ℚ)}
    {u : UserProfile} {o : OutcomeSummary} (h : aggregate_outcomes S u = some o) :
    o.estimated_cost =
      if 0 < (S.filterMap (fun p => p.1.cost_per_month)).length then
        some (listMedian (S.filterMap (fun p => p.1.cost_per_month)))
      else none := by
  unfold aggregate_outcomes at h
  by_cases hS : S.isEmpty
  · rw [if_pos hS] at h; cases h
  · rw [if_neg hS] at h
    cases h
    rfl

/-- C3: the match score is the fixed weighted sum of the four components
clamped to the interval from 0 to 100, and every output recommendation
carries that value of its own outcome summary rounded to an integer, lying
between 0 and 100. -/
theorem C3_match_score_formula_and_bounds :
    (∀ (o : OutcomeSummary) (u : UserProfile),
      calculate_match_score o u =
        min 100 (max 0
          (0.40 * (o.avg_similarity * 100) + 0.30 * (o.success_rate : ℚ) +
           0.20 * budgetScore o u + 0.10 * sideEffectScore o u))) ∧
    (∀ (cfg : DrugRecommender) (sim : UserProfile → ExperienceRecord → ℚ)
      (u : UserProfile) (df : List ExperienceRecord) (r : DrugRecommendation),
      r ∈ recommend cfg sim u df →
        0 ≤ r.match_score ∧ r.match_score ≤ 100 ∧
        ∃ o, aggregate_outcomes (find_similar_experiences cfg sim u df r.drug) u = some o ∧
          r.match_score = pythonRound (calculate_match_score o u)) := by
  constructor
  · intro o u
    have : o.avg_similarity * 100 * 0.40 + (o.success_rate : ℚ) * 0.30 +
        budgetScore o u * 0.20 + sideEffectScore o u * 0.10 =
        0.40 * (o.avg_similarity * 100) + 0.30 * (o.success_rate : ℚ) +
        0.20 * budgetScore o u + 0.10 * sideEffectScore o u := by ring
    simp only [calculate_match_score]
    rw [this]
  · intro cfg sim u df r hr
    rcases (mem_recommend_iff cfg sim u df r).mp hr with ⟨d, hd, hpd⟩
    rcases (perDrug_eq_some_iff cfg sim u df d r).mp hpd with ⟨hlen, o, ho, hre⟩
    have hdrug : r.drug = d := by rw [hre]; rfl
    have hms : r.match_score = pythonRound (calculate_match_score o u) := by
      rw [hre]; rfl
    refine ⟨?_, ?_, o, by rw [hdrug]; exact ho, hms⟩
    · rw [hms]
      exact le_pythonRound (by exact_mod_cast (calculate_match_score_bounds o u).1)
    · rw [hms]
      exact pythonRound_le (by exact_mod_cast (calculate_match_score_bounds o u).2)

attribute [local semireducible] Rat.add Rat.mul Rat.sub Rat.inv Rat.ofScientific in
/-- Witness for C3 at a concrete corpus of one record. -/
theorem C3_witness :
    wRec ∈ recommend wCfg wSimZero wUser [wDrugA] ∧
    0 ≤ wRec.match_score ∧ wRec.match_score ≤ 100 := by
  have hm : wRec ∈ recommend wCfg wSimZero wUser [wDrugA] := by decide
  exact ⟨hm,
    (C3_match_score_formula_and_bounds.2 wCfg wSimZero wUser [wDrugA] wRec hm).1,
    (C3_match_score_formula_and_bounds.2 wCfg wSimZero wUser [wDrugA] wRec hm).2.1⟩

/-- C6: the side-effect component is 100 when the user has no concerns or
the summary has no side effects, and otherwise the maximum of 0 and
100 minus 20 per matched concern (exact case-sensitive membership); one
matched concern yields 80. -/
theorem C6_side_effect_component :
    (∀ (o : OutcomeSummary) (u : UserProfile),
      sideEffectScore o u =
        if u.side_effect_concerns = [] ∨ o.side_effects = [] then 100
        else max 0 (100 - 20 * (matchedConcernCount o u : ℚ))) ∧
    (∀ (o : OutcomeSummary) (u : UserProfile),
      matchedConcernCount o u = 1 → sideEffectScore o u = 80) := by
  have key : ∀ (o : OutcomeSummary) (u : UserProfile),
      sideEffectScore o u =
        if u.side_effect_concerns = [] ∨ o.side_effects = [] then 100
        else max 0 (100 - 20 * (matchedConcernCount o u : ℚ)) := by
    intro o u
    unfold sideEffectScore
    by_cases h1 : u.side_effect_concerns = [] <;> by_cases h2 : o.side_effects = [] <;>
      simp [h1, h2, List.isEmpty_iff, mul_comm]
  refine ⟨key, fun o u h => ?_⟩
  have hse : o.side_effects ≠ [] := by
    intro hs
    rw [matchedConcernCount, hs] at h
    simp at h
  have hconc : u.side_effect_concerns ≠ [] := by
    intro hc
    rw [matchedConcernCount, hc] at h
    simp at h
  rw [key, if_neg (by tauto), h]
  norm_num

/-- Witness for C6: exactly one matched concern gives component 80. -/
theorem C6_witness :
    matchedConcernCount wOutcomeNausea wUserConcern = 1 ∧
    sideEffectScore wOutcomeNausea wUserConcern = 80 :=
  ⟨by decide, C6_side_effect_component.2 wOutcomeNausea wUserConcern (by decide)⟩

/-- C10: when every non-null cost among a recommended drug's selected
neighbors is 0, the recommendation reports estimated_cost as None and the
budget component of its match score is 100, whatever max_budget the user
set. -/
theorem C10_zero_median_cost (cfg : DrugRecommender)
    (sim : UserProfile → ExperienceRecord → ℚ) (u : UserProfile)
    (df : List ExperienceRecord) (r : DrugRecommendation) (o : OutcomeSummary)
    (hr : r ∈ recommend cfg sim u df)
    (ho : aggregate_outcomes (find_similar_experiences cfg sim u df r.drug) u = some o)
    (hc : ∀ c ∈ (find_similar_experiences cfg sim u df r.drug).filterMap
        (fun p => p.1.cost_per_month), c = (0 : ℚ)) :
    r.estimated_cost = none ∧ budgetScore o u = 100 := by
  have hcost : o.estimated_cost = none ∨ o.estimated_cost = some 0 := by
    rw [aggregate_outcomes_estimated_cost ho]
    by_cases hl : 0 <
        ((find_similar_experiences cfg sim u df r.drug).filterMap
          (fun p => p.1.cost_per_month)).length
    · refine Or.inr ?_
      rw [if_pos hl, listMedian_all_zero (by
        intro hnil
        rw [hnil] at hl
        simp at hl) hc]
    · exact Or.inl (by rw [if_neg hl])
  have hqt : qTruthy o.estimated_cost = false := by
    rcases hcost with h | h <;> simp [h, qTruthy]
  constructor
  · rcases (mem_recommend_iff cfg sim u df r).mp hr with ⟨d, hd, hpd⟩
    rcases (perDrug_eq_some_iff cfg sim u df d r).mp hpd with ⟨hlen, o2, ho2, hre⟩
    have hdrug : r.drug = d := by rw [hre]; rfl
    rw [hdrug] at ho
    rw [ho] at ho2
    cases ho2
    rw [hre]
    show (if qTruthy o.estimated_cost then some (pythonRound (o.estimated_cost.getD 0))
      else none) = none
    rw [hqt]
    rfl
  · unfold budgetScore
    rw [hqt]
    simp

attribute [local semireducible] Rat.add Rat.mul Rat.sub Rat.inv Rat.ofScientific in
/-- Witness for C10 at a concrete corpus with a single zero-cost record and
a user who set a max_budget. -/
theorem C10_witness :
    wRec ∈ recommend wCfg wSimZero wUserBudget [wCostZero] ∧
    aggregate_outcomes
      (find_similar_experiences wCfg wSimZero wUserBudget [wCostZero] wRec.drug)
      wUserBudget = some wOutcomeCost ∧
    wRec.estimated_cost = none ∧ budgetScore wOutcomeCost wUserBudget = 100 := by
  have hm : wRec ∈ recommend wCfg wSimZero wUserBudget [wCostZero] := by decide
  have ho : aggregate_outcomes
      (find_similar_experiences wCfg wSimZero wUserBudget [wCostZero] wRec.drug)
      wUserBudget = some wOutcomeCost := by decide
  exact ⟨hm, ho,
    (C10_zero_median_cost wCfg wSimZero wUserBudget [wCostZero] wRec wOutcomeCost
      hm ho (by decide)).1,
    (C10_zero_median_cost wCfg wSimZero wUserBudget [wCostZero] wRec wOutcomeCost
      hm ho (by decide)).2⟩

theorem take_drop_key_le {α β : Type} [LinearOrder β] {key : α → β} {l : List α} (k : ℕ)
    (hpw : List.Pairwise (fun a b => key b ≤ key a) l) :
    ∀ p ∈ l.take k, ∀ q ∈ l.drop k, key q ≤ key p := by
  rw [← List.take_append_drop k l] at hpw
  exact (List.pairwise_append.mp hpw).2.2

/-- C4: the neighbor search returns exactly the per-drug rows with the k
highest similarity scores, ties broken by original corpus order: the
result has length min k (number of matching rows), is drawn from the
matching rows, dominates every non-selected matching row, selects
equal-similarity rows in corpus order (its filtrate at every similarity
value is a prefix of the corpus filtrate), and is empty when no row
matches. -/
theorem C4_find_similar_top_k (cfg : DrugRecommender)
    (sim : UserProfile → ExperienceRecord → ℚ) (u : UserProfile)
    (df : List ExperienceRecord) (drug : String) :
    (find_similar_experiences cfg sim u df drug).length =
      min cfg.k
        ((df.filter (fun e => decide (e.primary_drug = some drug))).map
          (fun e => (e, sim u e))).length ∧
    (∀ p ∈ find_similar_experiences cfg sim u df drug,
      p ∈ (df.filter (fun e => decide (e.primary_drug = some drug))).map
        (fun e => (e, sim u e))) ∧
    (∀ p ∈ find_similar_experiences cfg sim u df drug,
      ∀ q ∈ (df.filter (fun e => decide (e.primary_drug = some drug))).map
        (fun e => (e, sim u e)),
      p.2 < q.2 → q ∈ find_similar_experiences cfg sim u df drug) ∧
    (∀ s : ℚ,
      (find_similar_experiences cfg sim u df drug).filter (fun p => decide (p.2 = s)) <+:
        ((df.filter (fun e => decide (e.primary_drug = some drug))).map
          (fun e => (e, sim u e))).filter (fun p => decide (p.2 = s))) ∧
    (df.filter (fun e => decide (e.primary_drug = some drug)) = [] →
      find_similar_experiences cfg sim u df drug = []) := by
  cases hE : (df.filter (fun e => decide (e.primary_drug = some drug))).isEmpty with
  | true =>
    have hnil : df.filter (fun e => decide (e.primary_drug = some drug)) = [] :=
      List.isEmpty_iff.mp hE
    have hR : find_similar_experiences cfg sim u df drug = [] := by
      simp only [find_similar_experiences]
      rw [hE]
      rfl
    rw [hR, hnil]
    simp
  | false =>
    have hR : find_similar_experiences cfg sim u df drug =
        (sortByKeyDesc (fun p => p.2)
          ((df.filter (fun e => decide (e.primary_drug = some drug))).map
            (fun e => (e, sim u e)))).take cfg.k := by
      simp only [find_similar_experiences]
      rw [hE]
      simp
    have hperm := sortByKeyDesc_perm (fun p : ExperienceRecord × ℚ => p.2)
      ((df.filter (fun e => decide (e.primary_drug = some drug))).map
        (fun e => (e, sim u e)))
    have hpw := sortByKeyDesc_pairwise (fun p : ExperienceRecord × ℚ => p.2)
      ((df.filter (fun e => decide (e.primary_drug = some drug))).map
        (fun e => (e, sim u e)))
    refine ⟨?_, ?_, ?_, ?_, ?_⟩
    · rw [hR, List.length_take, hperm.length_eq]
    · intro p hp
      rw [hR] at hp
      exact hperm.mem_iff.mp (List.take_subset _ _ hp)
    · intro p hp q hq hlt
      rw [hR] at hp ⊢
      have hqS := hperm.mem_iff.mpr hq
      rw [← List.take_append_drop cfg.k (sortByKeyDesc (fun p : ExperienceRecord × ℚ => p.2)
        ((df.filter (fun e => decide (e.primary_drug = some drug))).map
          (fun e => (e, sim u e))))] at hqS
      rcases List.mem_append.mp hqS with hqt | hqd
      · exact hqt
      · exact absurd hlt (not_lt.mpr (take_drop_key_le cfg.k hpw p hp q hqd))
    · intro s
      rw [hR]
      conv_rhs => rw [← sortByKeyDesc_filter_key (fun p : ExperienceRecord × ℚ => p.2) s]
      exact (List.take_prefix cfg.k _).filter _
    · intro hnil
      rw [List.isEmpty_iff.mpr hnil] at hE
      cases hE

attribute [local semireducible] Rat.add Rat.mul Rat.sub Rat.inv Rat.ofScientific in
/-- Witness for C4 on a three-row corpus with k equal to 2. -/
theorem C4_witness :
    ((wAge2, (2 : ℚ)) ∈
      find_similar_experiences wCfgK2 wSimAge wUser [wAge1, wAge3, wAge2] "a") ∧
    ((wAge3, (3 : ℚ)) ∈
      ([wAge1, wAge3, wAge2].filter (fun e => decide (e.primary_drug = some "a"))).map
        (fun e => (e, wSimAge wUser e))) ∧
    ((2 : ℚ) < 3) ∧
    ((wAge3, (3 : ℚ)) ∈
      find_similar_experiences wCfgK2 wSimAge wUser [wAge1, wAge3, wAge2] "a") ∧
    (find_similar_experiences wCfgK2 wSimAge wUser [wAge1, wAge3, wAge2] "a").length =
      min wCfgK2.k
        (([wAge1, wAge3, wAge2].filter (fun e => decide (e.primary_drug = some "a"))).map
          (fun e => (e, wSimAge wUser e))).length ∧
    find_similar_experiences wCfgK2 wSimAge wUser [wAge1, wAge3, wAge2] "b" = [] := by
  have hp : (wAge2, (2 : ℚ)) ∈
      find_similar_experiences wCfgK2 wSimAge wUser [wAge1, wAge3, wAge2] "a" := by decide
  have hq : (wAge3, (3 : ℚ)) ∈
      ([wAge1, wAge3, wAge2].filter (fun e => decide (e.primary_drug = some "a"))).map
        (fun e => (e, wSimAge wUser e)) := by decide
  have hlt : (2 : ℚ) < 3 := by decide
  refine ⟨hp, hq, hlt, ?_, ?_, ?_⟩
  · exact (C4_find_similar_top_k wCfgK2 wSimAge wUser [wAge1, wAge3, wAge2] "a").2.2.1
      (wAge2, 2) hp (wAge3, 3) hq hlt
  · exact (C4_find_similar_top_k wCfgK2 wSimAge wUser [wAge1, wAge3, wAge2] "a").1
  · exact (C4_find_similar_top_k wCfgK2 wSimAge wUser [wAge1, wAge3, wAge2] "b").2.2.2.2
      (by decide)

/-! ## Cauchy-Schwarz for feature vectors and the similarity bounds -/

theorem normSq_nonneg (u : List ℚ) : 0 ≤ normSq u := by
  induction u with
  | nil => simp [normSq, dotList]
  | cons a t ih =>
    have e : normSq (a :: t) = a * a + normSq t := rfl
    rw [e]
    nlinarith [mul_self_nonneg a]

theorem dotList_sq_le (u v : List ℚ) : dotList u v ^ 2 ≤ normSq u * normSq v := by
  induction u generalizing v with
  | nil => simp [dotList, normSq]
  | cons a u ih =>
    cases v with
    | nil =>
      have e : dotList (a :: u) ([] : List ℚ) = 0 := rfl
      have e2 : normSq ([] : List ℚ) = 0 := rfl
      rw [e, e2, mul_zero]
      norm_num
    | cons b v =>
      have h := ih v
      have hm := normSq_nonneg u
      have hn := normSq_nonneg v
      have e1 : dotList (a :: u) (b :: v) = a * b + dotList u v := rfl
      have e2 : normSq (a :: u) = a * a + normSq u := rfl
      have e3 : normSq (b :: v) = b * b + normSq v := rfl
      rw [e1, e2, e3]
      by_cases hz : normSq v = 0
      · have hd2 : dotList u v ^ 2 = 0 := by
          refine le_antisymm ?_ (sq_nonneg _)
          rw [hz, mul_zero] at h
          exact h
        have hd : dotList u v = 0 := by
          exact pow_eq_zero_iff (by norm_num) |>.mp hd2
        rw [hz, hd]
        nlinarith [mul_nonneg hm (mul_self_nonneg b)]
      · have hpos : 0 < normSq v := lt_of_le_of_ne hn (Ne.symm hz)
        nlinarith [h, hm, hn, hpos,
          sq_nonneg (a * normSq v - b * dotList u v),
          mul_nonneg (sq_nonneg b) (sub_nonneg.mpr h),
          mul_nonneg hn (sub_nonneg.mpr h)]

/-- C7: the similarity computation is total, always lands in the interval
from 0 to 1 (negative cosines are clamped to 0), and returns 0 when either
feature vector has zero norm instead of failing. -/
theorem C7_similarity_total_and_bounded :
    (∀ (uf ef : List ℚ), ∃ s : ℝ, calculate_similarity_rel uf ef s) ∧
    (∀ (uf ef : List ℚ) (s : ℝ),
      calculate_similarity_rel uf ef s → 0 ≤ s ∧ s ≤ 1) ∧
    (∀ (uf ef : List ℚ) (s : ℝ), (normSq uf = 0 ∨ normSq ef = 0) →
      calculate_similarity_rel uf ef s → s = 0) := by
  refine ⟨fun uf ef => ⟨_, rfl⟩, ?_, ?_⟩
  · intro uf ef s hs
    subst hs
    refine ⟨le_max_left 0 _, ?_⟩
    apply max_le (by norm_num)
    split_ifs with h
    · norm_num
    · push_neg at h
      obtain ⟨hu, hv⟩ := h
      have hu0 : (0 : ℝ) < ((normSq uf : ℚ) : ℝ) := by
        exact_mod_cast lt_of_le_of_ne (normSq_nonneg uf) (Ne.symm hu)
      have hv0 : (0 : ℝ) < ((normSq ef : ℚ) : ℝ) := by
        exact_mod_cast lt_of_le_of_ne (normSq_nonneg ef) (Ne.symm hv)
      have hsu : 0 < Real.sqrt ((normSq uf : ℚ) : ℝ) := Real.sqrt_pos.mpr hu0
      have hsv : 0 < Real.sqrt ((normSq ef : ℚ) : ℝ) := Real.sqrt_pos.mpr hv0
      rw [div_le_one (mul_pos hsu hsv)]
      have hcs : ((dotList uf ef : ℚ) : ℝ) ^ 2 ≤
          ((normSq uf : ℚ) : ℝ) * ((normSq ef : ℚ) : ℝ) := by
        exact_mod_cast dotList_sq_le uf ef
      calc ((dotList uf ef : ℚ) : ℝ)
          ≤ |((dotList uf ef : ℚ) : ℝ)| := le_abs_self _
        _ = Real.sqrt (((dotList uf ef : ℚ) : ℝ) ^ 2) := (Real.sqrt_sq_eq_abs _).symm
        _ ≤ Real.sqrt (((normSq uf : ℚ) : ℝ) * ((normSq ef : ℚ) : ℝ)) :=
            Real.sqrt_le_sqrt hcs
        _ = Real.sqrt ((normSq uf : ℚ) : ℝ) * Real.sqrt ((normSq ef : ℚ) : ℝ) :=
            Real.sqrt_mul hu0.le _
  · intro uf ef s h0 hs
    rw [hs, if_pos h0]
    exact max_self 0

attribute [local semireducible] Rat.add Rat.mul Rat.sub Rat.inv Rat.ofScientific in
/-- Witness for C7 on the one-dimensional vectors with entry 1 (similarity
exactly 1) and a zero vector (similarity 0). -/
theorem C7_witness :
    calculate_similarity_rel [1] [1] 1 ∧ ((0 : ℝ) ≤ 1 ∧ (1 : ℝ) ≤ 1) ∧
    calculate_similarity_rel [0] [5] 0 ∧ (0 : ℝ) = 0 := by
  have e1 : normSq [(1 : ℚ)] = 1 := by decide
  have ed : dotList [(1 : ℚ)] [(1 : ℚ)] = 1 := by decide
  have e0 : normSq [(0 : ℚ)] = 0 := by decide
  have h1 : calculate_similarity_rel [1] [1] 1 := by
    unfold calculate_similarity_rel
    rw [if_neg (by simp [e1]), ed, e1]
    simp [Real.sqrt_one]
  have h2 : calculate_similarity_rel [0] [5] 0 := by
    unfold calculate_similarity_rel
    rw [if_pos (Or.inl e0)]
    simp
  exact ⟨h1, C7_similarity_total_and_bounded.2.1 [1] [1] 1 h1, h2,
    C7_similarity_total_and_bounded.2.2 [0] [5] 0 (Or.inl e0) h2⟩

/-! ## Helper lemmas about the side-effect counting dict -/

theorem lookupC_bumpCount (acc : List (String × ℕ × String)) (e : String × String)
    (m : String) :
    lookupC (bumpCount acc e) m =
      if m = e.1 then
        (match lookupC acc m with
         | some (c, sv) => some (c + 1, sv)
         | none => some (1, e.2))
      else lookupC acc m := by
  induction acc with
  | nil =>
    by_cases hm : m = e.1
    · simp [bumpCount, lookupC, hm]
    · have hme : ¬ e.1 = m := fun h => hm h.symm
      simp [bumpCount, lookupC, hm, hme]
  | cons hd rest ih =>
    obtain ⟨n, c, sv⟩ := hd
    by_cases hn : n = e.1
    · by_cases hm : m = e.1
      · have hnm : n = m := by rw [hn, hm]
        simp [bumpCount, lookupC, hn, hnm, hm]
      · have hnm : ¬ n = m := by rw [hn]; exact fun h => hm h.symm
        have hem : ¬ e.1 = m := fun h => hm h.symm
        simp [bumpCount, lookupC, hn, hnm, hm, hem]
    · by_cases hnm : n = m
      · have hm2 : ¬ m = e.1 := by rw [← hnm]; exact hn
        simp [bumpCount, lookupC, hn, hnm, hm2]
      · simp [bumpCount, lookupC, hn, hnm, ih]

theorem lookupC_foldl_some (occ : List (String × String))
    (acc : List (String × ℕ × String)) (m : String) (c : ℕ) (sv : String)
    (h : lookupC acc m = some (c, sv)) :
    lookupC (occ.foldl bumpCount acc) m =
      some (c + occ.countP (fun o => decide (o.1 = m)), sv) := by
  induction occ generalizing acc c with
  | nil => simpa using h
  | cons e rest ih =>
    show lookupC (rest.foldl bumpCount (bumpCount acc e)) m = _
    by_cases hm : m = e.1
    · have hpe : decide (e.1 = m) = true := by simp [hm]
      have hb : lookupC (bumpCount acc e) m = some (c + 1, sv) := by
        rw [lookupC_bumpCount, if_pos hm, h]
      rw [ih (bumpCount acc e) (c + 1) hb]
      congr 2
      rw [List.countP_cons, hpe]
      simp
      omega
    · have hpe : decide (e.1 = m) = false := by
        simp only [decide_eq_false_iff_not]
        exact fun h2 => hm h2.symm
      have hb : lookupC (bumpCount acc e) m = some (c, sv) := by
        rw [lookupC_bumpCount, if_neg hm, h]
      rw [ih (bumpCount acc e) c hb]
      congr 2
      rw [List.countP_cons, hpe]
      simp

theorem lookupC_foldl_none_found (occ : List (String × String))
    (acc : List (String × ℕ × String)) (m : String) (o2 : String × String)
    (hnone : lookupC acc m = none)
    (hfind : occ.find? (fun o => decide (o.1 = m)) = some o2) :
    lookupC (occ.foldl bumpCount acc) m =
      some (occ.countP (fun o => decide (o.1 = m)), o2.2) := by
  induction occ generalizing acc with
  | nil => cases hfind
  | cons e rest ih =>
    show lookupC (rest.foldl bumpCount (bumpCount acc e)) m = _
    by_cases hm : m = e.1
    · have hpe : decide (e.1 = m) = true := by simp [hm]
      have he : e = o2 := by
        rw [@List.find?_cons_of_pos _ (fun o => decide (o.1 = m)) e rest hpe] at hfind
        exact Option.some.inj hfind
      have hb : lookupC (bumpCount acc e) m = some (1, e.2) := by
        rw [lookupC_bumpCount, if_pos hm, hnone]
      rw [lookupC_foldl_some rest (bumpCount acc e) m 1 e.2 hb, ← he]
      congr 2
      rw [List.countP_cons, hpe]
      simp
      omega
    · have hpe : decide (e.1 = m) = false := by
        simp only [decide_eq_false_iff_not]
        exact fun h2 => hm h2.symm
      have hb : lookupC (bumpCount acc e) m = none := by
        rw [lookupC_bumpCount, if_neg hm, hnone]
      rw [@List.find?_cons_of_neg _ (fun o => decide (o.1 = m)) e rest
        (by simp [hpe])] at hfind
      rw [ih (bumpCount acc e) hb hfind]
      congr 2
      rw [List.countP_cons, hpe]
      simp

theorem lookupC_foldl_none (occ : List (String × String))
    (acc : List (String × ℕ × String)) (m : String)
    (hnone : lookupC acc m = none)
    (hfind : occ.find? (fun o => decide (o.1 = m)) = none) :
    lookupC (occ.foldl bumpCount acc) m = none := by
  induction occ generalizing acc with
  | nil => simpa using hnone
  | cons e rest ih =>
    show lookupC (rest.foldl bumpCount (bumpCount acc e)) m = none
    by_cases hm : m = e.1
    · rw [@List.find?_cons_of_pos _ (fun o => decide (o.1 = m)) e rest
        (by simp [hm])] at hfind
      cases hfind
    · have hpe : decide (e.1 = m) = false := by
        simp only [decide_eq_false_iff_not]
        exact fun h2 => hm h2.symm
      rw [@List.find?_cons_of_neg _ (fun o => decide (o.1 = m)) e rest
        (by simp [hpe])] at hfind
      have hb : lookupC (bumpCount acc e) m = none := by
        rw [lookupC_bumpCount, if_neg hm, hnone]
      exact ih (bumpCount acc e) hb hfind

theorem bumpCount_keys (acc : List (String × ℕ × String)) (e : String × String) :
    (bumpCount acc e).map (fun t => t.1) =
      if e.1 ∈ acc.map (fun t => t.1) then acc.map (fun t => t.1)
      else acc.map (fun t => t.1) ++ [e.1] := by
  induction acc with
  | nil => simp [bumpCount]
  | cons hd rest ih =>
    obtain ⟨n, c, sv⟩ := hd
    by_cases hn : n = e.1
    · subst hn
      simp [bumpCount]
    · have hne : ¬ e.1 = n := fun h => hn h.symm
      by_cases hmem : e.1 ∈ rest.map (fun t => t.1) <;>
        simp [bumpCount, hn, hne, hmem, ih]

theorem foldl_bumpCount_keys (occ : List (String × String))
    (acc : List (String × ℕ × String)) :
    (occ.foldl bumpCount acc).map (fun t => t.1) =
      (occ.map (fun o => o.1)).foldl
        (fun ks n => if n ∈ ks then ks else ks ++ [n]) (acc.map (fun t => t.1)) := by
  induction occ generalizing acc with
  | nil => rfl
  | cons e rest ih =>
    show (rest.foldl bumpCount (bumpCount acc e)).map (fun t => t.1) = _
    rw [ih (bumpCount acc e), bumpCount_keys]
    rfl

theorem buildCounts_keys (occ : List (String × String)) :
    (buildCounts occ).map (fun t => t.1) = firstDedup (occ.map (fun o => o.1)) := by
  unfold buildCounts firstDedup
  rw [foldl_bumpCount_keys]
  rfl

theorem nodup_foldl_dedup (l : List String) (ks : List String) (h : ks.Nodup) :
    (l.foldl (fun ks n => if n ∈ ks then ks else ks ++ [n]) ks).Nodup := by
  induction l generalizing ks with
  | nil => simpa using h
  | cons n t ih =>
    show (t.foldl _ (if n ∈ ks then ks else ks ++ [n])).Nodup
    by_cases hn : n ∈ ks
    · rw [if_pos hn]; exact ih ks h
    · rw [if_neg hn]
      exact ih (ks ++ [n]) (by simp [List.nodup_append, h, hn])

theorem nodup_firstDedup (l : List String) : (firstDedup l).Nodup :=
  nodup_foldl_dedup l [] (by simp)

theorem mem_iff_lookupC (n : String) (c : ℕ) (sv : String) :
    ∀ (acc : List (String × ℕ × String)), (acc.map (fun t => t.1)).Nodup →
      ((n, c, sv) ∈ acc ↔ lookupC acc n = some (c, sv)) := by
  intro acc
  induction acc with
  | nil =>
    intro _
    simp [lookupC]
  | cons hd rest ih =>
    intro hnd
    obtain ⟨m, c0, s0⟩ := hd
    rw [List.map_cons, List.nodup_cons] at hnd
    by_cases hm : m = n
    · constructor
      · intro h
        rcases List.mem_cons.mp h with he | hmem
        · rw [Prod.mk.injEq] at he
          obtain ⟨hn1, hcs⟩ := he
          rw [Prod.mk.injEq] at hcs
          simp [lookupC, hm, hcs.1, hcs.2]
        · exfalso
          apply hnd.1
          exact List.mem_map.mpr ⟨(n, c, sv), hmem, hm.symm⟩
      · intro h
        have h0 : lookupC ((m, c0, s0) :: rest) n = some (c0, s0) := by
          simp [lookupC, hm]
        have h2 := Option.some.inj (h0.symm.trans h)
        rw [Prod.mk.injEq] at h2
        refine List.mem_cons.mpr (Or.inl ?_)
        rw [Prod.mk.injEq]
        exact ⟨hm.symm, by rw [Prod.mk.injEq]; exact ⟨h2.1.symm, h2.2.symm⟩⟩
    · have hiff := ih hnd.2
      constructor
      · intro h
        rcases List.mem_cons.mp h with he | hmem
        · rw [Prod.mk.injEq] at he
          exact absurd he.1.symm hm
        · have h2 := hiff.mp hmem
          simpa [lookupC, hm] using h2
      · intro h
        have h2 : lookupC rest n = some (c, sv) := by
          simpa [lookupC, hm] using h
        exact List.mem_cons.mpr (Or.inr (hiff.mpr h2))

theorem countP_le_one_of_nodup {ns : List String} (h : ns.Nodup) (n : String) :
    ns.countP (fun m => decide (m = n)) ≤ 1 := by
  induction ns with
  | nil => simp
  | cons m rest ih =>
    rw [List.countP_cons]
    rw [List.nodup_cons] at h
    by_cases hm : m = n
    · subst hm
      have hz : rest.countP (fun x => decide (x = m)) = 0 :=
        List.countP_eq_zero.mpr (fun x hx => by
          simp only [decide_eq_true_eq]
          exact fun he => h.1 (he ▸ hx))
      simp [hz]
    · simp [hm]
      exact ih h.2

theorem sum_le_length {l : List ℕ} (h : ∀ x ∈ l, x ≤ 1) : l.sum ≤ l.length := by
  induction l with
  | nil => simp
  | cons a t ih =>
    rw [List.sum_cons, List.length_cons]
    have ha := h a (List.mem_cons_self a t)
    have ht := ih (fun x hx => h x (List.mem_cons_of_mem a hx))
    omega

/-- C5 (amended): for a non-empty neighbor set the aggregated side-effect
list has at most 5 entries with pairwise-distinct normalized names; the
counting dict is in first-seen key order, counts every occurrence of a
normalized name across all neighbors (combining case and whitespace
variants), and reports the severity of the first encountered occurrence;
entries are ranked by count descending with ties in first-seen order and
the output maps the top 5 to probability round(count/total neighbors x 100),
which is always nonnegative — and is at most 100 provided no single
neighbor lists the same normalized effect name more than once. -/
theorem C5_side_effect_aggregation (S : List (ExperienceRecord × ℚ)) (hS : S ≠ []) :
    (topSideEffects S).length ≤ 5 ∧
    ((topSideEffects S).map (fun e => e.effect)).Nodup ∧
    (buildCounts (collectEffects S)).map (fun t => t.1) =
      firstDedup ((collectEffects S).map (fun o => o.1)) ∧
    (∀ n c sv, (n, c, sv) ∈ buildCounts (collectEffects S) →
      c = (collectEffects S).countP (fun o => decide (o.1 = n)) ∧
      ∃ o2, (collectEffects S).find? (fun o => decide (o.1 = n)) = some o2 ∧
        o2.1 = n ∧ o2.2 = sv) ∧
    List.Pairwise (fun a b => b.2.1 ≤ a.2.1) (rankedCounts S) ∧
    (∀ c : ℕ, (rankedCounts S).filter (fun t => decide (t.2.1 = c)) =
      (buildCounts (collectEffects S)).filter (fun t => decide (t.2.1 = c))) ∧
    topSideEffects S = ((rankedCounts S).take 5).map (fun t =>
      { effect := t.1
        probability := pythonRound ((t.2.1 : ℚ) / (S.length : ℚ) * 100)
        severity := t.2.2 }) ∧
    (∀ e ∈ topSideEffects S, 0 ≤ e.probability) ∧
    ((∀ p ∈ S, ((recordEffects p).map (fun o => o.1)).Nodup) →
      ∀ e ∈ topSideEffects S, e.probability ≤ 100) := by
  have hkeys := buildCounts_keys (collectEffects S)
  have hnd : ((buildCounts (collectEffects S)).map (fun t => t.1)).Nodup := by
    rw [hkeys]; exact nodup_firstDedup _
  have hperm : (rankedCounts S).Perm (buildCounts (collectEffects S)) :=
    sortByKeyDesc_perm _ _
  have hcount : ∀ n c sv, (n, c, sv) ∈ buildCounts (collectEffects S) →
      c = (collectEffects S).countP (fun o => decide (o.1 = n)) ∧
      ∃ o2, (collectEffects S).find? (fun o => decide (o.1 = n)) = some o2 ∧
        o2.1 = n ∧ o2.2 = sv := by
    intro n c sv hmem
    have hlk : lookupC ((collectEffects S).foldl bumpCount []) n = some (c, sv) :=
      (mem_iff_lookupC n c sv _ hnd).mp hmem
    cases hfind : (collectEffects S).find? (fun o => decide (o.1 = n)) with
    | none =>
      exfalso
      rw [lookupC_foldl_none (collectEffects S) [] n rfl hfind] at hlk
      cases hlk
    | some o2 =>
      have hval := lookupC_foldl_none_found (collectEffects S) [] n o2 rfl hfind
      have h2 := Option.some.inj (hval.symm.trans hlk)
      rw [Prod.mk.injEq] at h2
      exact ⟨h2.1.symm, o2, rfl,
        of_decide_eq_true
          (@List.find?_some _ (fun o => decide (o.1 = n)) o2 (collectEffects S) hfind),
        h2.2⟩
  refine ⟨?_, ?_, hkeys, hcount, sortByKeyDesc_pairwise _ _,
    fun c => sortByKeyDesc_filter_key _ c _, rfl, ?_, ?_⟩
  · show (((rankedCounts S).take 5).map _).length ≤ 5
    rw [List.length_map, List.length_take]
    exact min_le_left 5 _
  · have hmm : (topSideEffects S).map (fun e => e.effect) =
        ((rankedCounts S).take 5).map (fun t => t.1) := by
      show (((rankedCounts S).take 5).map _).map _ = _
      rw [List.map_map]
      rfl
    rw [hmm]
    exact List.Nodup.sublist ((List.take_sublist 5 _).map _)
      (((hperm.map _).nodup_iff).mpr hnd)
  · intro e he
    rcases List.mem_map.mp he with ⟨t, ht, rfl⟩
    exact le_pythonRound (by push_cast; positivity)
  · intro hnod e he
    rcases List.mem_map.mp he with ⟨t, ht, rfl⟩
    have htr : t ∈ rankedCounts S := List.take_subset 5 _ ht
    have htc : t ∈ buildCounts (collectEffects S) := hperm.mem_iff.mp htr
    have hc := (hcount t.1 t.2.1 t.2.2 htc).1
    have hle : t.2.1 ≤ S.length := by
      rw [hc]
      have hflat : (collectEffects S).countP (fun o => decide (o.1 = t.1)) =
          ((S.map recordEffects).map
            (List.countP (fun o => decide (o.1 = t.1)))).sum := by
        rw [collectEffects, List.countP_flatten]
      rw [hflat, List.map_map]
      have heach : ∀ x ∈ S.map (fun y =>
          (recordEffects y).countP (fun o => decide (o.1 = t.1))), x ≤ 1 := by
        intro x hx
        rcases List.mem_map.mp hx with ⟨y, hy, rfl⟩
        have h1 : (recordEffects y).countP (fun o => decide (o.1 = t.1)) =
            ((recordEffects y).map (fun o => o.1)).countP
              (fun mn => decide (mn = t.1)) :=
          (@List.countP_map (String × String) String (fun mn => decide (mn = t.1))
            (fun o => o.1) (recordEffects y)).symm
        rw [h1]
        exact countP_le_one_of_nodup (hnod y hy) t.1
      have := sum_le_length heach
      rwa [List.length_map] at this
    have hlen1 : 1 ≤ S.length := List.length_pos.mpr hS
    have hlenpos : (0 : ℚ) < (S.length : ℚ) := by
      exact_mod_cast Nat.lt_of_lt_of_le Nat.zero_lt_one hlen1
    have hdiv : (t.2.1 : ℚ) / (S.length : ℚ) ≤ 1 :=
      (div_le_one hlenpos).mpr (by exact_mod_cast hle)
    refine pythonRound_le ?_
    push_cast
    nlinarith [hdiv]

attribute [local semireducible] Rat.add Rat.mul Rat.sub Rat.inv Rat.ofScientific in
/-- Counterexample for C5 as frozen: one neighbor that lists two variants
of the same normalized effect name yields probability 200, outside the
interval from 0 to 100 that the claim asserts. -/
theorem C5_counterexample :
    ∃ e ∈ topSideEffects [(cexDupNausea, (0 : ℚ))], 100 < e.probability := by decide

attribute [local semireducible] Rat.add Rat.mul Rat.sub Rat.inv Rat.ofScientific in
/-- Witness for C5 on the spec's own dedup scenario: two neighbors
reporting Nausea and a whitespace lowercase variant aggregate into one
entry with combined count and probability 100. -/
theorem C5_witness :
    ([(wNauseaA, (0 : ℚ)), (wNauseaB, 1)] ≠ ([] : List (ExperienceRecord × ℚ))) ∧
    (topSideEffects [(wNauseaA, (0 : ℚ)), (wNauseaB, 1)]).length ≤ 5 ∧
    (⟨"Nausea", 100, "moderate"⟩ : SideEffectOut) ∈
      topSideEffects [(wNauseaA, (0 : ℚ)), (wNauseaB, 1)] ∧
    (⟨"Nausea", 100, "moderate"⟩ : SideEffectOut).probability ≤ 100 := by
  have hne : [(wNauseaA, (0 : ℚ)), (wNauseaB, 1)] ≠
      ([] : List (ExperienceRecord × ℚ)) := by decide
  have hmem : (⟨"Nausea", 100, "moderate"⟩ : SideEffectOut) ∈
      topSideEffects [(wNauseaA, (0 : ℚ)), (wNauseaB, 1)] := by decide
  exact ⟨hne, (C5_side_effect_aggregation _ hne).1, hmem,
    (C5_side_effect_aggregation _ hne).2.2.2.2.2.2.2.2 (by decide) _ hmem⟩

end WhichGLP
